import Mathlib

/-
Verification development for the CuevanaScraper pipeline (cuavanaslow.py).
Each Python function relevant to the spec is shallowly embedded as a Lean
definition; browser/process effects are modelled by explicit environment
functions, and traces (frames acted on, player processes spawned, sessions
opened) are returned alongside results so that temporal claims become
statements about those traces.
-/

/-! ## String utilities

Python's `pat in s` substring test and `s.replace(old, new)` are modelled
over `List Char`.  `containsStr s pat` is Python's `pat in s`. -/

/-- Does `pat` occur at the head of `l`? (helper for substring search). -/
def leadMatch : List Char → List Char → Bool
  | [], _ => true
  | _ :: _, [] => false
  | p :: ps, c :: cs => p == c && leadMatch ps cs

/-- Does `pat` occur anywhere inside `l`? -/
def hasSub (pat : List Char) : List Char → Bool
  | [] => pat.isEmpty
  | c :: cs => leadMatch pat (c :: cs) || hasSub pat cs

/-- Python's `pat in s` substring containment. -/
def containsStr (s pat : String) : Bool :=
  hasSub pat.data s.data

/-- Python's `s.lower()` (ASCII case folding, as the URLs here are ASCII). -/
def pyLower (s : String) : String :=
  ⟨s.data.map Char.toLower⟩

/-- Python's `s.strip()`: remove leading and trailing whitespace. -/
def pyStrip (s : String) : String :=
  ⟨((s.data.dropWhile Char.isWhitespace).reverse.dropWhile Char.isWhitespace).reverse⟩

/-- Python's `s.replace(old, new)` on char lists: leftmost, non-overlapping
replacement of every occurrence of `pat` by `repl`.  The fuel argument (any
bound of at least the list length) keeps the recursion structural. -/
def pyReplaceFuel (pat repl : List Char) : Nat → List Char → List Char
  | 0, l => l
  | _ + 1, [] => []
  | fuel + 1, c :: cs =>
    if leadMatch pat (c :: cs) then
      repl ++ pyReplaceFuel pat repl fuel (List.drop pat.length (c :: cs))
    else
      c :: pyReplaceFuel pat repl fuel cs

/-- Python's `s.replace(old, new)` for a non-empty pattern. -/
def pyReplace (pat repl : List Char) (l : List Char) : List Char :=
  pyReplaceFuel pat repl l.length l

/-- Helper for Python's whitespace-separated `s.split()`: accumulates the
current word (reversed) while scanning. -/
def wordsAux : List Char → List Char → List (List Char)
  | [], cur => if cur.isEmpty then [] else [cur.reverse]
  | c :: cs, cur =>
    if c.isWhitespace then
      if cur.isEmpty then wordsAux cs [] else cur.reverse :: wordsAux cs []
    else
      wordsAux cs (c :: cur)

/-- Python's `s.split()` (no argument: split on whitespace runs, no empties). -/
def pySplitWs (s : String) : List String :=
  (wordsAux s.data []).map fun w => ⟨w⟩

/-- Helper for Python's `s.split(sep)` with a non-empty separator; fuel keeps
the recursion structural (any bound above the list length works). -/
def splitOnFuel (sep : List Char) : Nat → List Char → List Char → List (List Char)
  | 0, l, cur => [cur.reverse ++ l]
  | _ + 1, [], cur => [cur.reverse]
  | fuel + 1, c :: cs, cur =>
    if leadMatch sep (c :: cs) then
      cur.reverse :: splitOnFuel sep fuel (List.drop sep.length (c :: cs)) []
    else
      splitOnFuel sep fuel cs (c :: cur)

/-- Python's `s.split(sep)` for a non-empty separator. -/
def pySplitOn (s sep : String) : List String :=
  (splitOnFuel sep.data (s.data.length + 1) s.data []).map fun w => ⟨w⟩

/-! ## Link prioritizer (`get_best_m3u8_link`, cuavanaslow.py lines 530-550) -/

/-- Embedding of `get_best_m3u8_link`: first the `index`-not-`master`
candidates, then the non-`master` candidates, else the first link. -/
def get_best_m3u8_link (video_links : List String) : Option String :=
  match video_links with
  | [] => none
  | first :: _ =>
    let priority_links := video_links.filter
      (fun link => containsStr (pyLower link) "index" && !containsStr (pyLower link) "master")
    match priority_links.head? with
    | some l => some l
    | none =>
      let non_master_links := video_links.filter
        (fun link => !containsStr (pyLower link) "master")
      match non_master_links.head? with
      | some l => some l
      | none => some first

/-! ## Source option selector (`find_and_click_video_option`, lines 241-302)

The page is abstracted by `avail : String → Bool`: whether the element at a
given XPath can be found and clicked within its timeout.  The run also
returns the list of XPaths actually attempted, so that "stops at the first
success / never attempts a later entry" is a statement about that trace. -/

/-- The caller-declared source flags (`source_flags` dictionary; one boolean
per provider × quality pair, cf. `main`, lines 896-903). -/
structure SourceFlags where
  vidhide_hd : Bool
  filemoon_hd : Bool
  voesx_hd : Bool
  vidhide_cam : Bool
  filemoon_cam : Bool
  voesx_cam : Bool
deriving DecidableEq

/-- The all-false configuration (also what an absent/empty dictionary means). -/
def noFlags : SourceFlags :=
  ⟨false, false, false, false, false, false⟩

/-- The `hd_options` dictionary, in insertion order: flag name to XPath. -/
def hd_options : List (String × String) :=
  [("vidhide_hd", "//span[contains(text(), 'vidhide - HD')]"),
   ("filemoon_hd", "//span[contains(text(), 'filemoon - HD')]"),
   ("voesx_hd", "//span[contains(text(), 'voesx - HD')]")]

/-- The `cam_options` dictionary, in insertion order: flag name to XPath. -/
def cam_options : List (String × String) :=
  [("vidhide_cam", "//span[contains(text(), 'vidhide - CAM')]"),
   ("filemoon_cam", "//span[contains(text(), 'filemoon - CAM')]"),
   ("voesx_cam", "//span[contains(text(), 'voesx - CAM')]")]

/-- `source_flags.get(flag)` of the code: look a flag up by name (missing
names are falsy). -/
def flagVal (f : SourceFlags) : String → Bool
  | "vidhide_hd" => f.vidhide_hd
  | "filemoon_hd" => f.filemoon_hd
  | "voesx_hd" => f.voesx_hd
  | "vidhide_cam" => f.vidhide_cam
  | "filemoon_cam" => f.filemoon_cam
  | "voesx_cam" => f.voesx_cam
  | _ => false

/-- `any(source_flags.values())` of the code. -/
def has_flags (f : SourceFlags) : Bool :=
  f.vidhide_hd || f.filemoon_hd || f.voesx_hd
    || f.vidhide_cam || f.filemoon_cam || f.voesx_cam

/-- The `options_to_try` list built by `find_and_click_video_option`:
`(xpath, quality)` pairs, restricted to the true flags when any flag is set,
otherwise all six in default order (HD group before CAM group). -/
def options_to_try (f : SourceFlags) : List (String × String) :=
  if has_flags f then
    (hd_options.filter (fun p => flagVal f p.1)).map (fun p => (p.2, "HD"))
      ++ (cam_options.filter (fun p => flagVal f p.1)).map (fun p => (p.2, "CAM"))
  else
    hd_options.map (fun p => (p.2, "HD")) ++ cam_options.map (fun p => (p.2, "CAM"))

/-- Result of the selector: the `(success, is_netu)` pair the code returns,
plus the trace of XPaths it attempted. -/
structure ClickResult where
  success : Bool
  is_netu : Bool
  attempted : List String
deriving DecidableEq

/-- The `for option_xpath, quality in options_to_try` loop: each attempt
either finds and clicks its element (return `(True, False)`) or fails and
moves on; exhaustion returns `(False, False)`. -/
def tryOptions (avail : String → Bool) : List (String × String) → ClickResult
  | [] => ⟨false, false, []⟩
  | (option_xpath, _quality) :: rest =>
    if avail option_xpath then
      ⟨true, false, [option_xpath]⟩
    else
      let r := tryOptions avail rest
      ⟨r.success, false, option_xpath :: r.attempted⟩

/-- Embedding of `find_and_click_video_option` (the early `(False, False)`
return when flags are set but match no option is kept, though it is
unreachable with the six-field flag record). -/
def find_and_click_video_option (avail : String → Bool) (f : SourceFlags) : ClickResult :=
  let opts := options_to_try f
  if has_flags f && opts.isEmpty then ⟨false, false, []⟩
  else tryOptions avail opts

/-- The six attempts of the default order, as `(xpath, quality)` pairs. -/
def defaultSix : List (String × String) :=
  [("//span[contains(text(), 'vidhide - HD')]", "HD"),
   ("//span[contains(text(), 'filemoon - HD')]", "HD"),
   ("//span[contains(text(), 'voesx - HD')]", "HD"),
   ("//span[contains(text(), 'vidhide - CAM')]", "CAM"),
   ("//span[contains(text(), 'filemoon - CAM')]", "CAM"),
   ("//span[contains(text(), 'voesx - CAM')]", "CAM")]

/-! ## Embed/redirect resolver (`check_and_handle_iframe`, lines 304-421)

Frames are the iframe `src` attributes (`none` when `get_attribute` yields
no value).  Browser interaction is abstracted by an environment: the voe.sx
logo-click path either yields the current URL or raises internally; on the
player.cuevana3 path the primary play-button click and the alternative
click can each succeed or raise, and `urlAt`/`urlAt2` give the page URL
observed at each second of the respective redirect-poll loop. -/

/-- Environment for one resolver call. -/
structure IframeEnv where
  voe : String → Option String
  playClick : String → Bool
  altClick : String → Bool
  urlAt : String → Nat → String
  urlAt2 : String → Nat → String

/-- The redirect-poll `while time.time() - start_time < max_wait` loop: check
the current URL at second `t`; on change return the elapsed seconds and the
new URL, else sleep a second and re-check; fuel counts remaining checks. -/
def pollAux (urlAt : Nat → String) (player_url : String) : Nat → Nat → Option (Nat × String)
  | 0, _ => none
  | fuel + 1, t =>
    if urlAt t ≠ player_url then some (t, urlAt t)
    else pollAux urlAt player_url fuel (t + 1)

/-- The full 30-second redirect poll (`max_wait = 30`, one check per second
starting right after the click): `some (elapsed, new_url)` on a redirect,
`none` on timeout. -/
def pollRedirect (urlAt : Nat → String) (player_url : String) : Option (Nat × String) :=
  pollAux urlAt player_url 30 0

/-- The `player.cuevana3.eu/player.php` branch (Pattern R): primary click
then poll; on a raised click, alternative click then poll; any remaining
failure or poll timeout returns `None` — this branch always ends the call. -/
def handlePlayerFrame (env : IframeEnv) (src : String) : Option String :=
  if env.playClick src then
    match pollRedirect (env.urlAt src) src with
    | some (_, u) => some u
    | none => none
  else if env.altClick src then
    match pollRedirect (env.urlAt2 src) src with
    | some (_, u) => some u
    | none => none
  else none

/-- Result of one resolver call: the returned URL (if any) and the trace of
frame `src`s that were acted on (navigated to and interacted with). -/
structure IframeOutcome where
  result : Option String
  acted : List String
deriving DecidableEq

/-- Embedding of `check_and_handle_iframe`'s frame loop.  voe.sx frames are
acted on; on an internal failure of that branch the `continue` runs, but the
branch has already navigated away from the page that produced the element
handles (`driver.get`, line 318), so the next iteration's
`iframe.get_attribute('src')` raises `StaleElementReferenceException` into
the outer handler (line 419) and the call returns `None` — and if the failed
frame was the last one, the loop simply ends and returns `None`; either way
no further frame is read, so the failure case is `⟨none, [src]⟩`.  (Should
`driver.get` itself raise, the outer handler returns `None` directly, the
same outcome.)  player.cuevana3 frames are acted on and always end the call;
frames matching neither pattern are passed over without navigation, leaving
the remaining handles valid. -/
def check_and_handle_iframe (env : IframeEnv) : List (Option String) → IframeOutcome
  | [] => ⟨none, []⟩
  | none :: rest => check_and_handle_iframe env rest
  | some src :: rest =>
    if src = "" then check_and_handle_iframe env rest
    else if containsStr src "voe.sx" then
      match env.voe src with
      | some u => ⟨some u, [src]⟩
      | none => ⟨none, [src]⟩
    else if containsStr src "player.cuevana3.eu/player.php" then
      ⟨handlePlayerFrame env src, [src]⟩
    else
      check_and_handle_iframe env rest

/-- Concrete environment for the C5 witness: the logo click raises on the
first voe.sx frame and would succeed on any other. -/
def c5Env : IframeEnv :=
  ⟨fun s => if s == "https://voe.sx/e/first" then none else some "https://voe.sx/final",
   fun _ => true, fun _ => true, fun _ _ => "", fun _ _ => ""⟩

/-- Concrete frame list for the C5 witness: two voe.sx frames, of which only
the first is ever acted on. -/
def c5Frames : List (Option String) :=
  [some "https://voe.sx/e/first", some "https://voe.sx/e/second"]

/-- Concrete URL history for the C6 witness: the polled URL changes at
second 12. -/
def c6UrlAt : Nat → String :=
  fun t => if t < 12 then "https://player.cuevana3.eu/player.php?h=abc" else "https://newhost.example/stream"

/-! ## Playback verifier (`try_play_in_vlc`, lines 450-528)

The external player is abstracted by an environment: whether a VLC
executable is found on disk, whether the process spawned for a link is
still alive at the 5-second check, whether it is still alive after the
auto-test observation window, and the user's yes/no answer in interactive
mode.  The outcome carries the spawned-process trace. -/

/-- Environment for one verification call. -/
structure VlcEnv where
  vlcFound : Bool
  aliveAt5 : String → Bool
  aliveAfterWindow : String → Bool
  userYes : String → Bool

/-- Result of a verification call: the returned boolean and the links for
which a player process was spawned, in order. -/
structure VlcOutcome where
  ok : Bool
  spawned : List String
deriving DecidableEq

/-- The domain filter of `try_play_in_vlc` (line 457): links containing
`swiftplayers.com/stream/` or `jonathansociallike.com` are excluded. -/
def excludedLink (link : String) : Bool :=
  containsStr link "swiftplayers.com/stream/" || containsStr link "jonathansociallike.com"

/-- The `for link in filtered_links` loop of `try_play_in_vlc`: locate VLC
(fatal if missing), spawn, check liveness at 5s, then either the auto-test
observation window or the interactive prompt decides; failures advance to
the next link. -/
def vlcLoop (env : VlcEnv) (auto_test : Bool) : List String → VlcOutcome
  | [] => ⟨false, []⟩
  | link :: rest =>
    if !env.vlcFound then ⟨false, []⟩
    else if !env.aliveAt5 link then
      let r := vlcLoop env auto_test rest
      ⟨r.ok, link :: r.spawned⟩
    else if auto_test then
      if env.aliveAfterWindow link then ⟨true, [link]⟩
      else
        let r := vlcLoop env auto_test rest
        ⟨r.ok, link :: r.spawned⟩
    else
      if env.userYes link then ⟨true, [link]⟩
      else
        let r := vlcLoop env auto_test rest
        ⟨r.ok, link :: r.spawned⟩

/-- Embedding of `try_play_in_vlc`: empty input fails; the excluded-domain
filter runs before anything else; if nothing survives it, the call fails
without spawning a player; otherwise the per-link loop runs. -/
def try_play_in_vlc (env : VlcEnv) (video_links : List String) (auto_test : Bool) : VlcOutcome :=
  if video_links.isEmpty then ⟨false, []⟩
  else
    let filtered_links := video_links.filter (fun link => !excludedLink link)
    if filtered_links.isEmpty then ⟨false, []⟩
    else vlcLoop env auto_test filtered_links

/-! ## Manifest-entry formatter (`format_roku_xml`, lines 590-636) -/

/-- The scraped movie details record (`get_movie_details`). -/
structure MovieDetails where
  title : String
  image_url : String
  description : String
  info : String
  genres : List String
  actors : List String

/-- One manifest `<item>` entry, field by field, before rendering. -/
structure RokuEntry where
  title : String
  description : String
  hdposterurl : String
  url : String
  genres : String
  year : String
  runtime : String
deriving DecidableEq

/-- The title/description cleanup of lines 617-618:
`.strip().replace('""', '').replace('"', '')`. -/
def rokuCleanField (s : String) : String :=
  ⟨pyReplace ['"'] [] (pyReplace ['"', '"'] [] (pyStrip s).data)⟩

/-- Embedding of `format_roku_xml` up to the emitted fields: guard on falsy
inputs, split the info text for year/runtime, find the first link that
passes the automated playback test, and clean the title and description. -/
def format_roku_entry (env : VlcEnv) (movie_details : Option MovieDetails)
    (video_links : List String) : Option RokuEntry :=
  match movie_details with
  | none => none
  | some md =>
    if video_links.isEmpty then none
    else
      let info_parts := pySplitWs md.info
      let year := if info_parts.length > 0 then info_parts.getLastD "" else ""
      let runtime :=
        if info_parts.length > 2 then
          String.intercalate " " ((info_parts.drop 1).dropLast)
        else ""
      match video_links.find? (fun link => (try_play_in_vlc env [link] true).ok) with
      | none => none
      | some video_url =>
        some ⟨rokuCleanField md.title, rokuCleanField md.description, md.image_url,
              video_url, String.intercalate ", " md.genres, year, runtime⟩

/-- The f-string of lines 621-634 rendering one entry. -/
def render_roku_xml (e : RokuEntry) : String :=
  "   <item\n           title=\"" ++ e.title
    ++ "\"\n           description=\"" ++ e.description
    ++ "\"\n           hdposterurl=\"" ++ e.hdposterurl
    ++ "\"\n           streamformat=\"hls\"\n           url=\"" ++ e.url
    ++ "\">\n\n      <genre>" ++ e.genres
    ++ "</genre>\n      <year>" ++ e.year
    ++ "</year>\n      <runtime>" ++ e.runtime
    ++ "</runtime>\n\n      <subtitle language=\"eng\" description=\"English\" url=\"\"/>\n      <subtitle language=\"spa\" description=\"Spanish\" url=\"\"/>\n   </item>"

/-- `format_roku_xml` as the rendered string. -/
def format_roku_xml (env : VlcEnv) (movie_details : Option MovieDetails)
    (video_links : List String) : Option String :=
  (format_roku_entry env movie_details video_links).map render_roku_xml

/-- Concrete environment for witnesses: VLC found and every process lives. -/
def happyVlcEnv : VlcEnv :=
  ⟨true, fun _ => true, fun _ => true, fun _ => true⟩

/-- Concrete movie details (with embedded double quotes) for the C10 witness. -/
def c10Md : MovieDetails :=
  ⟨"My \"Quoted\" Movie", "https://img.example/p.jpg", "A \"description\" text.",
   "8.0 120 min. 2020", ["Drama"], []⟩

/-- The entry the formatter produces for `c10Md` (quotes deleted). -/
def c10Entry : RokuEntry :=
  ⟨"My Quoted Movie", "A description text.", "https://img.example/p.jpg",
   "https://host.example/v/index.m3u8", "Drama", "2020", "120 min."⟩

/-! ## Batch history guard (`process_all_movies_for_roku`, lines 638-721)

The claim concerns which targets get a browser session: the history load,
the per-line parse, and the pre-session skip are embedded; the title trace
`sessionsOpened` lists the titles for which a Chrome driver is created. -/

/-- History load (lines 641-649): for each `MainHistory.txt` line containing
`" | "`, take the first segment, strip it, lower-case it. -/
def loadHistory (histLines : List String) : List String :=
  (histLines.filter (fun line => containsStr line " | ")).map
    (fun line => pyLower (pyStrip ((pySplitOn line " | ").headD "")))

/-- The `title, url = movie_line.split(' | ')` unpacking with `.strip()`;
any other number of parts raises and the target is skipped. -/
def parseMovieLine (line : String) : Option (String × String) :=
  match pySplitOn line " | " with
  | [t, u] => some (pyStrip t, pyStrip u)
  | _ => none

/-- Titles for which the batch loop reaches driver creation (line 715): a
line must parse, and the lower-cased title must not be in the loaded
history — that check happens before the session is opened. -/
def sessionsOpened (processed_movies : List String) (movies : List String) : List String :=
  movies.filterMap (fun movie_line =>
    match parseMovieLine movie_line with
    | none => none
    | some (title, _url) =>
      if pyLower title ∈ processed_movies then none else some title)

/-! ## Resource harvester, normal mode (`find_m3u8_links`, lines 65-128)

Network records are `(method, url)` pairs; entries whose JSON parse fails in
the code are represented as entries whose method does not match.  Python's
set is modelled as an insertion-ordered duplicate-free list. -/

/-- One performance-log record. -/
structure LogEntry where
  method : String
  url : String

/-- Does a record contribute a link? (`'Network.responseReceived' in
log['method']` and `'.m3u8' in url`). -/
def goodEntry (e : LogEntry) : Bool :=
  containsStr e.method "Network.responseReceived" && containsStr e.url ".m3u8"

/-- One scan pass: add each matching URL to the set (`m3u8_links.add(url)`),
keeping the first occurrence only. -/
def scanLogs (acc : List String) : List LogEntry → List String
  | [] => acc
  | e :: es =>
    if goodEntry e then
      if e.url ∈ acc then scanLogs acc es else scanLogs (acc ++ [e.url]) es
    else scanLogs acc es

/-- The per-frame passes: a frame whose context switch fails (`except:
continue`) is `none` and contributes nothing. -/
def scanFrames (acc : List String) : List (Option (List LogEntry)) → List String
  | [] => acc
  | none :: fs => scanFrames acc fs
  | some logs :: fs => scanFrames (scanLogs acc logs) fs

/-- Embedding of `find_m3u8_links` in normal mode: top-level scan, then the
frame scans, then the final delayed scan, all into one deduplicating set. -/
def find_m3u8_links_normal (topLogs : List LogEntry)
    (frames : List (Option (List LogEntry))) (finalLogs : List LogEntry) : List String :=
  scanLogs (scanFrames (scanLogs [] topLogs) frames) finalLogs

/-! ## Theorems -/

theorem head?_filter_eq_find? (p : α → Bool) (l : List α) :
    (l.filter p).head? = l.find? p := by
  induction l with
  | nil => rfl
  | cons a as ih =>
    by_cases h : p a = true
    · simp [List.filter, List.find?, h]
    · simp only [Bool.not_eq_true] at h
      simp [List.filter, List.find?, h, ih]

/-- Claim C1: the link prioritizer is a pure deterministic function: it
returns the first candidate whose lower-cased form contains "index" but not
"master"; else the first candidate not containing "master"; else the first
candidate overall; and it returns none iff the input is empty.  The three
concrete examples of the spec are included. -/
theorem c1_link_prioritizer_spec :
    (∀ video_links : List String,
      get_best_m3u8_link video_links =
        ((video_links.find? (fun link =>
            containsStr (pyLower link) "index" && !containsStr (pyLower link) "master")).or
          ((video_links.find? (fun link => !containsStr (pyLower link) "master")).or
            video_links.head?))
      ∧ (get_best_m3u8_link video_links = none ↔ video_links = []))
    ∧ get_best_m3u8_link ["a/master.m3u8", "b/index.m3u8", "c/index_master.m3u8"]
        = some "b/index.m3u8"
    ∧ get_best_m3u8_link ["x/master.m3u8", "y/master.m3u8"] = some "x/master.m3u8"
    ∧ get_best_m3u8_link [] = none := by
  refine ⟨fun video_links => ⟨?_, ?_⟩, by decide, by decide, rfl⟩
  · cases video_links with
    | nil => rfl
    | cons first rest =>
      simp only [get_best_m3u8_link, head?_filter_eq_find?]
      cases hf : (first :: rest).find? (fun link =>
          containsStr (pyLower link) "index" && !containsStr (pyLower link) "master") with
      | some l => simp [Option.or]
      | none =>
        cases hg : (first :: rest).find? (fun link => !containsStr (pyLower link) "master") with
        | some l => simp [Option.or]
        | none => simp [Option.or]
  · cases video_links with
    | nil => simp [get_best_m3u8_link]
    | cons first rest =>
      simp only [get_best_m3u8_link]
      cases (first :: rest).filter (fun link =>
          containsStr (pyLower link) "index" && !containsStr (pyLower link) "master") |>.head? with
      | some l => simp
      | none =>
        cases ((first :: rest).filter (fun link => !containsStr (pyLower link) "master")).head? with
        | some l => simp
        | none => simp

theorem tryOptions_is_netu (avail : String → Bool) (l : List (String × String)) :
    (tryOptions avail l).is_netu = false := by
  induction l with
  | nil => rfl
  | cons a rest ih =>
    obtain ⟨xpath, q⟩ := a
    by_cases h : avail xpath = true
    · simp [tryOptions, h]
    · simp only [Bool.not_eq_true] at h
      simp [tryOptions, h]

theorem tryOptions_found (avail : String → Bool) :
    ∀ (l : List (String × String)) (p : String × String),
      l.find? (fun q => avail q.1) = some p →
      tryOptions avail l =
        ⟨true, false, (l.takeWhile (fun q => !avail q.1)).map Prod.fst ++ [p.1]⟩ := by
  intro l
  induction l with
  | nil => intro p h; simp [List.find?] at h
  | cons a rest ih =>
    intro p h
    obtain ⟨xpath, q⟩ := a
    rw [List.find?_cons] at h
    by_cases ha : avail xpath = true
    · simp only [ha] at h
      injection h with h
      subst h
      simp [tryOptions, ha, List.takeWhile_cons]
    · simp only [Bool.not_eq_true] at ha
      simp only [ha] at h
      have := ih p h
      simp [tryOptions, ha, List.takeWhile_cons, this]

theorem tryOptions_exhausted (avail : String → Bool) :
    ∀ l : List (String × String), (∀ q ∈ l, avail q.1 = false) →
      tryOptions avail l = ⟨false, false, l.map Prod.fst⟩ := by
  intro l
  induction l with
  | nil => intro _; rfl
  | cons a rest ih =>
    intro h
    obtain ⟨xpath, q⟩ := a
    have hx : avail xpath = false := h (xpath, q) (by simp)
    have := ih (fun p hp => h p (by simp [hp]))
    simp [tryOptions, hx, this]

/-- Claim C2: with a configuration in which no flag is true, the selector's
attempt list is exactly the six known (provider, quality) pairs in the fixed
default order (vidhide-HD, filemoon-HD, voesx-HD, vidhide-CAM, filemoon-CAM,
voesx-CAM), and it stops at the first attempt whose option is available,
returning success with exactly the attempts up to and including that first
success in its trace. -/
theorem c2_default_order_first_success (f : SourceFlags) (avail : String → Bool)
    (p : String × String) (hflags : has_flags f = false)
    (hfind : defaultSix.find? (fun q => avail q.1) = some p) :
    options_to_try f = defaultSix
    ∧ find_and_click_video_option avail f =
        ⟨true, false, (defaultSix.takeWhile (fun q => !avail q.1)).map Prod.fst ++ [p.1]⟩ := by
  have hopts : options_to_try f = defaultSix := by
    simp [options_to_try, hflags, hd_options, cam_options, defaultSix]
  refine ⟨hopts, ?_⟩
  have hrun : find_and_click_video_option avail f = tryOptions avail defaultSix := by
    simp [find_and_click_video_option, hopts, hflags]
  rw [hrun, tryOptions_found avail defaultSix p hfind]

theorem c2_default_order_first_success_witness :
    has_flags noFlags = false
    ∧ defaultSix.find?
        (fun q => q.1 == "//span[contains(text(), 'filemoon - HD')]")
        = some ("//span[contains(text(), 'filemoon - HD')]", "HD")
    ∧ options_to_try noFlags = defaultSix
    ∧ find_and_click_video_option
        (fun x => x == "//span[contains(text(), 'filemoon - HD')]") noFlags =
        ⟨true, false,
         (defaultSix.takeWhile
            (fun q => !(q.1 == "//span[contains(text(), 'filemoon - HD')]"))).map Prod.fst
           ++ [("//span[contains(text(), 'filemoon - HD')]", "HD").1]⟩ := by
  have h := c2_default_order_first_success noFlags
    (fun x => x == "//span[contains(text(), 'filemoon - HD')]")
    ("//span[contains(text(), 'filemoon - HD')]", "HD") (by decide) (by decide)
  exact ⟨by decide, by decide, h.1, h.2⟩

/-- Claim C3: with at least one flag true, the attempt list is exactly the
true entries (HD group before CAM group, in declared provider order), and if
every attempt in the restricted list fails, the selector returns failure
having attempted exactly that list — no fallback to the default order. -/
theorem c3_restricted_no_fallback (f : SourceFlags) (avail : String → Bool)
    (hflags : has_flags f = true)
    (hfail : ∀ q ∈ options_to_try f, avail q.1 = false) :
    options_to_try f =
      (hd_options.filter (fun p => flagVal f p.1)).map (fun p => (p.2, "HD"))
        ++ (cam_options.filter (fun p => flagVal f p.1)).map (fun p => (p.2, "CAM"))
    ∧ find_and_click_video_option avail f =
        ⟨false, false, (options_to_try f).map Prod.fst⟩ := by
  constructor
  · simp [options_to_try, hflags]
  · by_cases hempty : (options_to_try f).isEmpty = true
    · rw [List.isEmpty_iff] at hempty
      simp [find_and_click_video_option, hempty, hflags]
    · have hrun : find_and_click_video_option avail f = tryOptions avail (options_to_try f) := by
        simp [find_and_click_video_option, hempty]
      rw [hrun, tryOptions_exhausted avail _ hfail]

theorem c3_restricted_no_fallback_witness :
    has_flags ⟨false, true, false, false, false, false⟩ = true
    ∧ options_to_try ⟨false, true, false, false, false, false⟩
        = [("//span[contains(text(), 'filemoon - HD')]", "HD")]
    ∧ find_and_click_video_option (fun _ => false) ⟨false, true, false, false, false, false⟩ =
        ⟨false, false, ["//span[contains(text(), 'filemoon - HD')]"]⟩ := by
  have h := c3_restricted_no_fallback ⟨false, true, false, false, false, false⟩
    (fun _ => false) (by decide) (fun q _ => rfl)
  refine ⟨by decide, by decide, ?_⟩
  rw [h.2]
  decide

theorem selector_is_netu_false (avail : String → Bool) (f : SourceFlags) :
    (find_and_click_video_option avail f).is_netu = false := by
  by_cases h : (has_flags f && (options_to_try f).isEmpty) = true
  · simp [find_and_click_video_option, h]
  · simp only [Bool.not_eq_true] at h
    simp [find_and_click_video_option, h, tryOptions_is_netu]

/-- Claim C4, counterexample: there is no execution of the selector in which
the second component of the returned pair is true — it never distinguishes
the special (netu) provider, contrary to the claim. -/
theorem c4_counterexample_is_netu_never_true :
    ¬ ∃ (avail : String → Bool) (f : SourceFlags),
        (find_and_click_video_option avail f).is_netu = true := by
  rintro ⟨avail, f, h⟩
  rw [selector_is_netu_false avail f] at h
  cases h

/-- Claim C4, amended: the selector's second return value is false on every
execution; the special-provider flag is never set (the option list contains
no netu entry and every return site passes a literal false). -/
theorem c4_amended_is_netu_always_false (avail : String → Bool) (f : SourceFlags) :
    (find_and_click_video_option avail f).is_netu = false :=
  selector_is_netu_false avail f

/-- Claim C5: per resolver call at most one frame matching Pattern R or
Pattern V is acted on; once the first matching frame has been attempted the
resolver never acts on a further matching frame, and an internal failure
along that branch yields "no redirect resolved" (none) for the call — for a
failed voe.sx logo click because the navigation has staled the remaining
handles (or the loop is over), and for the player branch because both click
paths and the poll timeout all return `None` inside `handlePlayerFrame`. -/
theorem c5_at_most_one_matching_frame_acted (env : IframeEnv)
    (frames : List (Option String)) :
    (check_and_handle_iframe env frames).acted.length ≤ 1
    ∧ (∀ src, (check_and_handle_iframe env frames).acted = [src] →
        containsStr src "voe.sx" = true → env.voe src = none →
        (check_and_handle_iframe env frames).result = none)
    ∧ (∀ src, (check_and_handle_iframe env frames).acted = [src] →
        containsStr src "voe.sx" = false →
        env.playClick src = false → env.altClick src = false →
        (check_and_handle_iframe env frames).result = none) := by
  induction frames with
  | nil =>
    refine ⟨by simp [check_and_handle_iframe], ?_, ?_⟩
    · intro src h
      simp [check_and_handle_iframe] at h
    · intro src h
      simp [check_and_handle_iframe] at h
  | cons fr rest ih =>
    cases fr with
    | none => exact ih
    | some src0 =>
      by_cases he : src0 = ""
      · simpa [check_and_handle_iframe, he] using ih
      · by_cases hv : containsStr src0 "voe.sx" = true
        · cases hvoe : env.voe src0 with
          | some u =>
            refine ⟨by simp [check_and_handle_iframe, he, hv, hvoe], ?_, ?_⟩
            · intro src hacted hvsrc hvoesrc
              have h0 : src0 = src := by
                simpa [check_and_handle_iframe, he, hv, hvoe] using hacted
              subst h0
              rw [hvoe] at hvoesrc
              cases hvoesrc
            · intro src hacted hvsrc _ _
              have h0 : src0 = src := by
                simpa [check_and_handle_iframe, he, hv, hvoe] using hacted
              subst h0
              rw [hv] at hvsrc
              cases hvsrc
          | none =>
            refine ⟨by simp [check_and_handle_iframe, he, hv, hvoe], ?_, ?_⟩
            · intro src _ _ _
              simp [check_and_handle_iframe, he, hv, hvoe]
            · intro src _ _ _ _
              simp [check_and_handle_iframe, he, hv, hvoe]
        · simp only [Bool.not_eq_true] at hv
          by_cases hp : containsStr src0 "player.cuevana3.eu/player.php" = true
          · refine ⟨by simp [check_and_handle_iframe, he, hv, hp], ?_, ?_⟩
            · intro src hacted hvsrc _
              have h0 : src0 = src := by
                simpa [check_and_handle_iframe, he, hv, hp] using hacted
              subst h0
              rw [hv] at hvsrc
              cases hvsrc
            · intro src hacted _ hplay halt
              have h0 : src0 = src := by
                simpa [check_and_handle_iframe, he, hv, hp] using hacted
              subst h0
              simp [check_and_handle_iframe, he, hv, hp, handlePlayerFrame, hplay, halt]
          · simp only [Bool.not_eq_true] at hp
            simpa [check_and_handle_iframe, he, hv, hp] using ih

theorem c5_at_most_one_matching_frame_acted_witness :
    (check_and_handle_iframe c5Env c5Frames).acted = ["https://voe.sx/e/first"]
    ∧ containsStr "https://voe.sx/e/first" "voe.sx" = true
    ∧ c5Env.voe "https://voe.sx/e/first" = none
    ∧ (check_and_handle_iframe c5Env c5Frames).result = none :=
  ⟨by decide, by decide, by decide,
   (c5_at_most_one_matching_frame_acted c5Env c5Frames).2.1
     "https://voe.sx/e/first" (by decide) (by decide) (by decide)⟩

/-- Claim C6: the Pattern R redirect poll checks the page URL once per second
for up to 30 seconds; its result is exactly the first second `t < 30` at
which the URL differs from the player URL, paired with the new URL, and
`none` (timed out, no URL) when the URL never changes within the window.
In particular a change at second 12 yields elapsed 12 with the new URL. -/
theorem c6_redirect_poll_spec :
    (∀ (urlAt : Nat → String) (player_url : String),
      pollRedirect urlAt player_url =
        ((List.range 30).find? (fun t => !(urlAt t == player_url))).map
          (fun t => (t, urlAt t)))
    ∧ pollRedirect c6UrlAt "https://player.cuevana3.eu/player.php?h=abc"
        = some (12, "https://newhost.example/stream")
    ∧ pollRedirect (fun _ => "https://player.cuevana3.eu/player.php?h=abc")
        "https://player.cuevana3.eu/player.php?h=abc" = none := by
  refine ⟨?_, by decide, by decide⟩
  intro urlAt player_url
  have main : ∀ fuel t0, pollAux urlAt player_url fuel t0 =
      ((List.range' t0 fuel).find? (fun t => !(urlAt t == player_url))).map
        (fun t => (t, urlAt t)) := by
    intro fuel
    induction fuel with
    | zero => intro t0; simp [pollAux, List.range']
    | succ n ih =>
      intro t0
      by_cases h : urlAt t0 = player_url
      · simp [pollAux, h, List.range'_succ, List.find?_cons, ih]
      · simp [pollAux, h, List.range'_succ, List.find?_cons, ih, beq_iff_eq]
  rw [show pollRedirect urlAt player_url = pollAux urlAt player_url 30 0 from rfl,
    main 30 0, List.range_eq_range']

/-- Claim C7: the known-bad-domain filter runs unconditionally before any
verification; a candidate list consisting only of excluded-domain links
makes the verifier report overall failure without ever spawning the
external player. -/
theorem c7_excluded_domains_no_spawn (env : VlcEnv) (video_links : List String)
    (auto_test : Bool) (hbad : ∀ link ∈ video_links, excludedLink link = true) :
    try_play_in_vlc env video_links auto_test = ⟨false, []⟩ := by
  by_cases hemp : video_links.isEmpty = true
  · simp [try_play_in_vlc, hemp]
  · have hfilter : video_links.filter (fun link => !excludedLink link) = [] := by
      rw [List.filter_eq_nil_iff]
      intro link hl
      simp [hbad link hl]
    simp [try_play_in_vlc, hemp, hfilter]

theorem c7_excluded_domains_no_spawn_witness :
    (∀ link ∈ ["https://swiftplayers.com/stream/a.m3u8",
               "https://jonathansociallike.com/x.m3u8"], excludedLink link = true)
    ∧ try_play_in_vlc happyVlcEnv
        ["https://swiftplayers.com/stream/a.m3u8",
         "https://jonathansociallike.com/x.m3u8"] true = ⟨false, []⟩ :=
  ⟨by decide, c7_excluded_domains_no_spawn happyVlcEnv _ true (by decide)⟩

/-- Claim C8: a target whose title (case-insensitively) is in the loaded
history never reaches driver creation — the skip happens before a browser
session is opened, for every batch input. -/
theorem c8_history_guard (histLines movies : List String) (t : String)
    (hmem : pyLower t ∈ loadHistory histLines) :
    t ∉ sessionsOpened (loadHistory histLines) movies := by
  intro hses
  simp only [sessionsOpened, List.mem_filterMap] at hses
  obtain ⟨line, _hline, hc⟩ := hses
  cases hp : parseMovieLine line with
  | none => rw [hp] at hc; cases hc
  | some tu =>
    obtain ⟨title, url⟩ := tu
    rw [hp] at hc
    by_cases hin : pyLower title ∈ loadHistory histLines
    · simp [hin] at hc
    · simp only [if_neg hin] at hc
      injection hc with hc
      subst hc
      exact hin hmem

theorem c8_history_guard_witness :
    pyLower "Movie X" ∈ loadHistory ["movie x | https://u.example/a"]
    ∧ "Movie X" ∉ sessionsOpened (loadHistory ["movie x | https://u.example/a"])
        ["Movie X | https://u.example/b", "Other | https://u.example/c"] :=
  ⟨by decide, c8_history_guard _ _ _ (by decide)⟩

theorem scanLogs_nodup (logs : List LogEntry) :
    ∀ acc : List String, acc.Nodup → (scanLogs acc logs).Nodup := by
  induction logs with
  | nil => intro acc h; exact h
  | cons e es ih =>
    intro acc h
    by_cases hg : goodEntry e = true
    · by_cases hm : e.url ∈ acc
      · have hstep : scanLogs acc (e :: es) = scanLogs acc es := by simp [scanLogs, hg, hm]
        rw [hstep]; exact ih acc h
      · have hstep : scanLogs acc (e :: es) = scanLogs (acc ++ [e.url]) es := by
          simp [scanLogs, hg, hm]
        rw [hstep]
        refine ih _ ?_
        simp [List.nodup_append, h, hm, List.disjoint_singleton]
    · simp only [Bool.not_eq_true] at hg
      have hstep : scanLogs acc (e :: es) = scanLogs acc es := by simp [scanLogs, hg]
      rw [hstep]; exact ih acc h

theorem scanLogs_mem (logs : List LogEntry) :
    ∀ (acc : List String) (u : String),
      u ∈ scanLogs acc logs ↔ u ∈ acc ∨ ∃ e ∈ logs, goodEntry e = true ∧ e.url = u := by
  induction logs with
  | nil => intro acc u; simp [scanLogs]
  | cons e es ih =>
    intro acc u
    by_cases hg : goodEntry e = true
    · by_cases hm : e.url ∈ acc
      · have hstep : scanLogs acc (e :: es) = scanLogs acc es := by simp [scanLogs, hg, hm]
        rw [hstep, ih]
        simp only [List.mem_cons]
        constructor
        · rintro (h | ⟨f, hf, hgf, hu⟩)
          · exact Or.inl h
          · exact Or.inr ⟨f, Or.inr hf, hgf, hu⟩
        · rintro (h | ⟨f, (rfl | hf), hgf, hu⟩)
          · exact Or.inl h
          · exact Or.inl (hu ▸ hm)
          · exact Or.inr ⟨f, hf, hgf, hu⟩
      · have hstep : scanLogs acc (e :: es) = scanLogs (acc ++ [e.url]) es := by
          simp [scanLogs, hg, hm]
        rw [hstep, ih]
        simp only [List.mem_append, List.mem_cons, List.not_mem_nil, or_false]
        constructor
        · rintro ((h | h) | ⟨f, hf, hgf, hu⟩)
          · exact Or.inl h
          · exact Or.inr ⟨e, Or.inl rfl, hg, h.symm⟩
          · exact Or.inr ⟨f, Or.inr hf, hgf, hu⟩
        · rintro (h | ⟨f, (rfl | hf), hgf, hu⟩)
          · exact Or.inl (Or.inl h)
          · exact Or.inl (Or.inr hu.symm)
          · exact Or.inr ⟨f, hf, hgf, hu⟩
    · simp only [Bool.not_eq_true] at hg
      have hstep : scanLogs acc (e :: es) = scanLogs acc es := by simp [scanLogs, hg]
      rw [hstep, ih]
      simp only [List.mem_cons]
      constructor
      · rintro (h | ⟨f, hf, hgf, hu⟩)
        · exact Or.inl h
        · exact Or.inr ⟨f, Or.inr hf, hgf, hu⟩
      · rintro (h | ⟨f, (rfl | hf), hgf, hu⟩)
        · exact Or.inl h
        · rw [hg] at hgf; cases hgf
        · exact Or.inr ⟨f, hf, hgf, hu⟩

theorem scanFrames_nodup (frames : List (Option (List LogEntry))) :
    ∀ acc : List String, acc.Nodup → (scanFrames acc frames).Nodup := by
  induction frames with
  | nil => intro acc h; exact h
  | cons fr fs ih =>
    intro acc h
    cases fr with
    | none => exact ih acc h
    | some logs => exact ih _ (scanLogs_nodup logs acc h)

theorem scanFrames_mem (frames : List (Option (List LogEntry))) :
    ∀ (acc : List String) (u : String),
      u ∈ scanFrames acc frames ↔
        u ∈ acc ∨ ∃ logs, some logs ∈ frames ∧ ∃ e ∈ logs, goodEntry e = true ∧ e.url = u := by
  induction frames with
  | nil => intro acc u; simp [scanFrames]
  | cons fr fs ih =>
    intro acc u
    cases fr with
    | none =>
      rw [show scanFrames acc (none :: fs) = scanFrames acc fs from rfl, ih]
      simp only [List.mem_cons]
      constructor
      · rintro (h | ⟨logs, hl, rest⟩)
        · exact Or.inl h
        · exact Or.inr ⟨logs, Or.inr hl, rest⟩
      · rintro (h | ⟨logs, (hl | hl), rest⟩)
        · exact Or.inl h
        · simp at hl
        · exact Or.inr ⟨logs, hl, rest⟩
    | some logs =>
      rw [show scanFrames acc (some logs :: fs) = scanFrames (scanLogs acc logs) fs from rfl,
        ih, scanLogs_mem]
      simp only [List.mem_cons]
      constructor
      · rintro ((h | ⟨e, he, hge, hu⟩) | ⟨logs', hl, rest⟩)
        · exact Or.inl h
        · exact Or.inr ⟨logs, Or.inl rfl, e, he, hge, hu⟩
        · exact Or.inr ⟨logs', Or.inr hl, rest⟩
      · rintro (h | ⟨logs', (hl | hl), rest⟩)
        · exact Or.inl (Or.inl h)
        · injection hl with hl
          subst hl
          exact Or.inl (Or.inr rest)
        · exact Or.inr ⟨logs', hl, rest⟩

/-- Claim C9: the normal-mode harvester has set semantics — its result has
no duplicate, and a URL is in the result exactly when some matching record
of the top-level scan, a frame scan, or the final delayed scan carries it
(so a URL observed by several scans appears exactly once). -/
theorem c9_harvester_set_semantics (topLogs : List LogEntry)
    (frames : List (Option (List LogEntry))) (finalLogs : List LogEntry) :
    (find_m3u8_links_normal topLogs frames finalLogs).Nodup
    ∧ ∀ u : String,
        u ∈ find_m3u8_links_normal topLogs frames finalLogs ↔
          ((∃ e ∈ topLogs, goodEntry e = true ∧ e.url = u)
            ∨ (∃ logs, some logs ∈ frames ∧ ∃ e ∈ logs, goodEntry e = true ∧ e.url = u)
            ∨ (∃ e ∈ finalLogs, goodEntry e = true ∧ e.url = u)) := by
  constructor
  · exact scanLogs_nodup _ _ (scanFrames_nodup _ _ (scanLogs_nodup _ _ List.nodup_nil))
  · intro u
    simp only [find_m3u8_links_normal]
    rw [scanLogs_mem, scanFrames_mem, scanLogs_mem]
    simp only [List.not_mem_nil, false_or]
    exact or_assoc

theorem pyReplaceFuel_single_filter (q : Char) :
    ∀ (fuel : Nat) (l : List Char), l.length ≤ fuel →
      pyReplaceFuel [q] [] fuel l = l.filter (fun c => !(c == q)) := by
  intro fuel
  induction fuel with
  | zero =>
    intro l hl
    have : l = [] := List.length_eq_zero.mp (Nat.le_zero.mp hl)
    subst this
    rfl
  | succ n ih =>
    intro l hl
    cases l with
    | nil => rfl
    | cons c cs =>
      have hl' : cs.length ≤ n := by
        simpa using Nat.succ_le_succ_iff.mp (by simpa using hl)
      by_cases hc : c = q
      · subst hc
        simp [pyReplaceFuel, leadMatch, List.filter_cons, ih cs hl']
      · have hne : (q == c) = false := by
          simp [beq_iff_eq]
          exact fun h => hc h.symm
        simp [pyReplaceFuel, leadMatch, hne, List.filter_cons,
          beq_iff_eq, hc, ih cs hl']

theorem rokuCleanField_no_quote (s : String) :
    ∀ c ∈ (rokuCleanField s).data, c ≠ '"' := by
  intro c hc
  have hdata : (rokuCleanField s).data
      = pyReplace ['"'] [] (pyReplace ['"', '"'] [] (pyStrip s).data) := rfl
  rw [hdata, pyReplace, pyReplaceFuel_single_filter '"' _ _ (le_refl _)] at hc
  rw [List.mem_filter] at hc
  intro heq
  rw [heq] at hc
  simp at hc

/-- Claim C10: whenever the manifest-entry formatter produces an entry, the
title and description values embedded in it contain no double-quote
character — the quotes were deleted, not escaped. -/
theorem c10_formatter_strips_quotes (env : VlcEnv) (movie_details : Option MovieDetails)
    (video_links : List String) (e : RokuEntry)
    (h : format_roku_entry env movie_details video_links = some e) :
    (∀ c ∈ e.title.data, c ≠ '"') ∧ (∀ c ∈ e.description.data, c ≠ '"') := by
  cases movie_details with
  | none => exact absurd h (by simp [format_roku_entry])
  | some md =>
    unfold format_roku_entry at h
    dsimp only at h
    split at h
    · cases h
    · split at h
      · cases h
      · injection h with h
        subst h
        exact ⟨rokuCleanField_no_quote md.title, rokuCleanField_no_quote md.description⟩

theorem c10_formatter_strips_quotes_witness :
    format_roku_entry happyVlcEnv (some c10Md) ["https://host.example/v/index.m3u8"]
        = some c10Entry
    ∧ (∀ c ∈ c10Entry.title.data, c ≠ '"')
    ∧ (∀ c ∈ c10Entry.description.data, c ≠ '"') := by
  have he : format_roku_entry happyVlcEnv (some c10Md) ["https://host.example/v/index.m3u8"]
      = some c10Entry := by decide
  exact ⟨he, (c10_formatter_strips_quotes _ _ _ _ he).1,
    (c10_formatter_strips_quotes _ _ _ _ he).2⟩
